import Mathlib

/-!
Shallow embedding of the spring-shrapnel optimizer (`Shrapnel.py`) over exact
rationals, together with proofs and refutations of the specification claims.
Machine floats are modelled by `ℚ`; Python `round(x, 6)` is modelled by
round-half-to-even at six decimals.
-/

namespace Shrapnel

set_option maxRecDepth 100000
set_option maxHeartbeats 2000000

/-- Python `round` to an integer: round half to even (banker's rounding). -/
def pyRoundHalfEven (y : ℚ) : ℤ :=
  let f : ℤ := ⌊y⌋
  let r : ℚ := y - f
  if r < 1/2 then f
  else if 1/2 < r then f + 1
  else if f % 2 = 0 then f else f + 1

/-- Python `round(x, 6)`. -/
def round6 (x : ℚ) : ℚ := (pyRoundHalfEven (x * 1000000) : ℚ) / 1000000

lemma pyRoundHalfEven_bounds (y : ℚ) :
    y - 1/2 ≤ (pyRoundHalfEven y : ℚ) ∧ (pyRoundHalfEven y : ℚ) ≤ y + 1/2 := by
  have hf : ((⌊y⌋ : ℤ) : ℚ) ≤ y := Int.floor_le y
  have hf2 : y < (⌊y⌋ : ℤ) + 1 := Int.lt_floor_add_one y
  simp only [pyRoundHalfEven]
  split_ifs with h1 h2 h3 <;> push_cast <;> constructor <;> linarith

lemma round6_bounds (x : ℚ) :
    x - 1/2000000 ≤ round6 x ∧ round6 x ≤ x + 1/2000000 := by
  obtain ⟨h1, h2⟩ := pyRoundHalfEven_bounds (x * 1000000)
  unfold round6
  constructor <;> [linarith; linarith]

lemma round6_is_multiple (x : ℚ) : ∃ k : ℤ, round6 x = (k : ℚ) / 1000000 :=
  ⟨pyRoundHalfEven (x * 1000000), rfl⟩

/-- If `y` is at least the 6-decimal value `m / 10^6`, so is `round6 y`. -/
lemma round6_ge_of_le (m : ℤ) (y : ℚ) (h : (m : ℚ) / 1000000 ≤ y) :
    (m : ℚ) / 1000000 ≤ round6 y := by
  obtain ⟨k, hk⟩ := round6_is_multiple y
  obtain ⟨h1, _⟩ := round6_bounds y
  rw [hk] at h1 ⊢
  have hmk : (m : ℚ) - 1 < (k : ℚ) := by linarith
  have h3 : (m : ℤ) - 1 < k := by exact_mod_cast hmk
  have : (m : ℚ) ≤ (k : ℚ) := by exact_mod_cast (by omega : (m : ℤ) ≤ k)
  linarith

/-- If `y` is at most the 6-decimal value `m / 10^6`, so is `round6 y`. -/
lemma round6_le_of_ge (m : ℤ) (y : ℚ) (h : y ≤ (m : ℚ) / 1000000) :
    round6 y ≤ (m : ℚ) / 1000000 := by
  obtain ⟨k, hk⟩ := round6_is_multiple y
  obtain ⟨_, h2⟩ := round6_bounds y
  rw [hk] at h2 ⊢
  have hmk : (k : ℚ) < (m : ℚ) + 1 := by linarith
  have h3 : (k : ℤ) < m + 1 := by exact_mod_cast hmk
  have : (k : ℚ) ≤ (m : ℚ) := by exact_mod_cast (by omega : (k : ℤ) ≤ m)
  linarith

/-- One spring/shrapnel unit (`class Quad` in `Shrapnel.py`). -/
structure Quad where
  X : ℚ
  Y : ℚ
  SL : ℚ
  SW : ℚ
  ST : ℚ
  SS : ℚ
  G : ℚ
deriving DecidableEq

/-- Moment of inertia `I = (SW * ST^3) / 12`. -/
def Quad.inertia (q : Quad) : ℚ := (q.SW * q.ST ^ 3) / 12

/-- Reaction force `F = (3 * G * I * SS) / SL^3`, 0 if any required dimension is 0. -/
def Quad.force (q : Quad) : ℚ :=
  if q.SL = 0 ∨ q.SW = 0 ∨ q.ST = 0 ∨ q.SS = 0 ∨ q.G = 0 then 0
  else (3 * q.G * q.inertia * q.SS) / q.SL ^ 3

def Quad.moment_x (q : Quad) (F : ℚ) : ℚ := F * q.X

def Quad.moment_y (q : Quad) (F : ℚ) : ℚ := F * q.Y

/-- Loop body of `frange`: Python `while x <= stop + 1e-9` with the degenerate-step
fallback `x += step if step != 0 else 1e-9`, on explicit fuel.  `none` means the
fuel ran out before the loop finished. -/
def frangeAux (stop step : ℚ) : ℕ → ℚ → List ℚ → Option (List ℚ)
  | 0, _, _ => none
  | fuel + 1, x, acc =>
    if x ≤ stop + 1/1000000000 then
      frangeAux stop step fuel (x + (if step = 0 then 1/1000000000 else step))
        (acc ++ [round6 x])
    else some acc

/-- `frange(start, stop, step)` with explicit fuel. -/
def frange (start stop step : ℚ) (fuel : ℕ) : Option (List ℚ) :=
  frangeAux stop step fuel start []

/-- Fuel that is always sufficient for the optimizer's calls: every range the
search builds spans at most about 1.05 units at a step of at least 0.02, i.e.
at most 54 loop iterations. -/
def frangeFuel : ℕ := 64

/-- Total version of `frange` as used by the optimizer (whose loops always
terminate well within `frangeFuel` iterations). -/
def frangeD (start stop step : ℚ) : List ℚ :=
  (frange start stop step frangeFuel).getD []

lemma frangeAux_fuel_mono (stop step : ℚ) :
    ∀ (n m : ℕ) (x : ℚ) (acc l : List ℚ), frangeAux stop step n x acc = some l →
      n ≤ m → frangeAux stop step m x acc = some l := by
  intro n
  induction n with
  | zero =>
    intro m x acc l h _
    simp [frangeAux] at h
  | succ k ih =>
    intro m x acc l h hm
    cases m with
    | zero => exact absurd hm (by omega)
    | succ m2 =>
      rw [frangeAux] at h ⊢
      by_cases hc : x ≤ stop + 1/1000000000
      · rw [if_pos hc] at h ⊢
        exact ih m2 _ _ _ h (by omega)
      · rw [if_neg hc] at h ⊢
        exact h

/-- To evaluate `frangeD` it suffices to run the loop with any sufficient fuel. -/
lemma frangeD_eq_of (lo hi step : ℚ) (n : ℕ) (l : List ℚ)
    (h : frange lo hi step n = some l) (hn : n ≤ frangeFuel) :
    frangeD lo hi step = l := by
  rw [frangeD, frange] at *
  rw [frangeAux_fuel_mono hi step n frangeFuel lo [] l h hn]
  rfl

/-- Python `min` of a nonempty list (the `[]` case is never reached by the code). -/
def listMin : List ℚ → ℚ
  | [] => 0
  | a :: l => l.foldl min a

/-- Python `max` of a nonempty list. -/
def listMax : List ℚ → ℚ
  | [] => 0
  | a :: l => l.foldl max a

lemma foldl_min_le_init (l : List ℚ) : ∀ a : ℚ, l.foldl min a ≤ a := by
  induction l with
  | nil => intro a; simp
  | cons b l ih =>
    intro a
    calc (b :: l).foldl min a = l.foldl min (min a b) := by simp [List.foldl]
    _ ≤ min a b := ih (min a b)
    _ ≤ a := min_le_left _ _

lemma foldl_min_le_mem (l : List ℚ) : ∀ a y, y ∈ l → l.foldl min a ≤ y := by
  induction l with
  | nil => intro a y hy; simp at hy
  | cons b l ih =>
    intro a y hy
    rcases List.mem_cons.mp hy with h | h
    · subst h
      calc (y :: l).foldl min a = l.foldl min (min a y) := by simp [List.foldl]
      _ ≤ min a y := foldl_min_le_init l _
      _ ≤ y := min_le_right _ _
    · exact ih (min a b) y h

lemma foldl_min_mem (l : List ℚ) : ∀ a, l.foldl min a = a ∨ l.foldl min a ∈ l := by
  induction l with
  | nil => intro a; left; rfl
  | cons b l ih =>
    intro a
    have h : (b :: l).foldl min a = l.foldl min (min a b) := by simp [List.foldl]
    rcases ih (min a b) with h2 | h2
    · rcases min_choice a b with h3 | h3
      · left; rw [h, h2, h3]
      · right; rw [h, h2, h3]; exact List.mem_cons_self _ _
    · right; rw [h]; exact List.mem_cons_of_mem _ h2

lemma foldl_max_ge_init (l : List ℚ) : ∀ a : ℚ, a ≤ l.foldl max a := by
  induction l with
  | nil => intro a; simp
  | cons b l ih =>
    intro a
    calc a ≤ max a b := le_max_left _ _
    _ ≤ l.foldl max (max a b) := ih (max a b)
    _ = (b :: l).foldl max a := by simp [List.foldl]

lemma foldl_max_ge_mem (l : List ℚ) : ∀ a y, y ∈ l → y ≤ l.foldl max a := by
  induction l with
  | nil => intro a y hy; simp at hy
  | cons b l ih =>
    intro a y hy
    rcases List.mem_cons.mp hy with h | h
    · subst h
      calc y ≤ max a y := le_max_right _ _
      _ ≤ l.foldl max (max a y) := foldl_max_ge_init l _
      _ = (y :: l).foldl max a := by simp [List.foldl]
    · exact ih (max a b) y h

lemma foldl_max_mem (l : List ℚ) : ∀ a, l.foldl max a = a ∨ l.foldl max a ∈ l := by
  induction l with
  | nil => intro a; left; rfl
  | cons b l ih =>
    intro a
    have h : (b :: l).foldl max a = l.foldl max (max a b) := by simp [List.foldl]
    rcases ih (max a b) with h2 | h2
    · rcases max_choice a b with h3 | h3
      · left; rw [h, h2, h3]
      · right; rw [h, h2, h3]; exact List.mem_cons_self _ _
    · right; rw [h]; exact List.mem_cons_of_mem _ h2

lemma listMin_le (l : List ℚ) (y : ℚ) (hy : y ∈ l) : listMin l ≤ y := by
  cases l with
  | nil => simp at hy
  | cons a l =>
    rcases List.mem_cons.mp hy with h | h
    · subst h; exact foldl_min_le_init l y
    · exact foldl_min_le_mem l a y h

lemma le_listMax (l : List ℚ) (y : ℚ) (hy : y ∈ l) : y ≤ listMax l := by
  cases l with
  | nil => simp at hy
  | cons a l =>
    rcases List.mem_cons.mp hy with h | h
    · subst h; exact foldl_max_ge_init l y
    · exact foldl_max_ge_mem l a y h

lemma listMin_mem (l : List ℚ) (hl : l ≠ []) : listMin l ∈ l := by
  cases l with
  | nil => exact absurd rfl hl
  | cons a l =>
    rcases foldl_min_mem l a with h | h
    · rw [listMin, h]; exact List.mem_cons_self _ _
    · rw [listMin]; exact List.mem_cons_of_mem _ h

lemma listMax_mem (l : List ℚ) (hl : l ≠ []) : listMax l ∈ l := by
  cases l with
  | nil => exact absurd rfl hl
  | cons a l =>
    rcases foldl_max_mem l a with h | h
    · rw [listMax, h]; exact List.mem_cons_self _ _
    · rw [listMax]; exact List.mem_cons_of_mem _ h

/-- Contribution of one quadrant to `sum_F_bounds`: `(F_q_min, F_q_max)`, or
`(0, 0)` when the loop body hits a `continue`. -/
def quadBounds (SWv STv SSv : ℚ) (q : Quad) (SL_list : List ℚ) : ℚ × ℚ :=
  if SL_list = [] then (0, 0)
  else
    let SLmin := listMin SL_list
    let SLmax := listMax SL_list
    let Cq := q.G * SSv * SWv * STv ^ 3 / 4
    if SLmin ≤ 0 ∨ SLmax ≤ 0 ∨ Cq = 0 then (0, 0)
    else (Cq / SLmax ^ 3, Cq / SLmin ^ 3)

/-- `sum_F_bounds(SWv, STv, SSv, SL_ranges)`: the enabled quadrants are zipped
with their SL ranges (`for i, q in enumerate(quads)` with `SL_ranges[i]`);
returns `(total_min, total_max)`. -/
def sum_F_bounds (SWv STv SSv : ℚ) (pairs : List (Quad × List ℚ)) : ℚ × ℚ :=
  pairs.foldl
    (fun acc p =>
      (acc.1 + (quadBounds SWv STv SSv p.1 p.2).1,
       acc.2 + (quadBounds SWv STv SSv p.1 p.2).2))
    (0, 0)

lemma sum_F_bounds_shift (SWv STv SSv : ℚ) (pairs : List (Quad × List ℚ)) :
    ∀ a b : ℚ,
      pairs.foldl
        (fun acc p =>
          (acc.1 + (quadBounds SWv STv SSv p.1 p.2).1,
           acc.2 + (quadBounds SWv STv SSv p.1 p.2).2))
        (a, b)
      = (a + (sum_F_bounds SWv STv SSv pairs).1,
         b + (sum_F_bounds SWv STv SSv pairs).2) := by
  induction pairs with
  | nil => intro a b; simp [sum_F_bounds]
  | cons p rest ih =>
    intro a b
    simp only [sum_F_bounds, List.foldl] at ih ⊢
    rw [ih, ih ((0:ℚ) + (quadBounds SWv STv SSv p.1 p.2).1)]
    rw [Prod.mk.injEq]
    constructor <;> ring

lemma sum_F_bounds_cons (SWv STv SSv : ℚ) (p : Quad × List ℚ)
    (rest : List (Quad × List ℚ)) :
    sum_F_bounds SWv STv SSv (p :: rest)
      = ((quadBounds SWv STv SSv p.1 p.2).1 + (sum_F_bounds SWv STv SSv rest).1,
         (quadBounds SWv STv SSv p.1 p.2).2 + (sum_F_bounds SWv STv SSv rest).2) := by
  have h := sum_F_bounds_shift SWv STv SSv rest
    ((0:ℚ) + (quadBounds SWv STv SSv p.1 p.2).1)
    ((0:ℚ) + (quadBounds SWv STv SSv p.1 p.2).2)
  simp only [sum_F_bounds, List.foldl] at h ⊢
  rw [h, Prod.mk.injEq]
  constructor <;> ring

/-- Exact aggregate force of an assembly obtained by giving each listed quadrant
the paired SL value and the shared SW, ST, SS (as `evaluate_combo` builds it):
the sum of the quadrants' `Quad.force` values. -/
def assemblyForce (SWv STv SSv : ℚ) : List (Quad × ℚ) → ℚ
  | [] => 0
  | (q, s) :: rest => (Quad.mk q.X q.Y s SWv STv SSv q.G).force + assemblyForce SWv STv SSv rest

lemma quadBounds_sound (SWv STv SSv : ℚ) (hSW : 0 ≤ SWv) (hST : 0 ≤ STv)
    (hSS : 0 ≤ SSv) (q : Quad) (hG : 0 ≤ q.G) (SL_list : List ℚ)
    (hpos : ∀ x ∈ SL_list, 0 < x) (s : ℚ) (hs : s ∈ SL_list) :
    (quadBounds SWv STv SSv q SL_list).1 ≤ (Quad.mk q.X q.Y s SWv STv SSv q.G).force ∧
    (Quad.mk q.X q.Y s SWv STv SSv q.G).force ≤ (quadBounds SWv STv SSv q SL_list).2 := by
  have hne : SL_list ≠ [] := List.ne_nil_of_mem hs
  have hspos : 0 < s := hpos s hs
  by_cases hCq : q.G * SSv * SWv * STv ^ 3 = 0
  · have hzero : q.G = 0 ∨ SSv = 0 ∨ SWv = 0 ∨ STv = 0 := by
      rcases mul_eq_zero.mp hCq with h | h
      · rcases mul_eq_zero.mp h with h2 | h2
        · rcases mul_eq_zero.mp h2 with h3 | h3
          · exact Or.inl h3
          · exact Or.inr (Or.inl h3)
        · exact Or.inr (Or.inr (Or.inl h2))
      · exact Or.inr (Or.inr (Or.inr ((pow_eq_zero_iff (by norm_num : (3:ℕ) ≠ 0)).mp h)))
    have hforce : (Quad.mk q.X q.Y s SWv STv SSv q.G).force = 0 := by
      rw [Quad.force, if_pos]
      rcases hzero with h | h | h | h
      · exact Or.inr (Or.inr (Or.inr (Or.inr h)))
      · exact Or.inr (Or.inr (Or.inr (Or.inl h)))
      · exact Or.inr (Or.inl h)
      · exact Or.inr (Or.inr (Or.inl h))
    have hb : quadBounds SWv STv SSv q SL_list = (0, 0) := by
      rw [quadBounds, if_neg hne, if_pos]
      exact Or.inr (Or.inr (by rw [hCq]; norm_num))
    rw [hforce, hb]
    exact ⟨le_refl 0, le_refl 0⟩
  · have hG0 : q.G ≠ 0 := fun h => hCq (by rw [h]; ring)
    have hSS0 : SSv ≠ 0 := fun h => hCq (by rw [h]; ring)
    have hSW0 : SWv ≠ 0 := fun h => hCq (by rw [h]; ring)
    have hST0 : STv ≠ 0 := fun h => hCq (by rw [h]; ring)
    have hGpos : 0 < q.G := lt_of_le_of_ne hG (Ne.symm hG0)
    have hSSpos : 0 < SSv := lt_of_le_of_ne hSS (Ne.symm hSS0)
    have hSWpos : 0 < SWv := lt_of_le_of_ne hSW (Ne.symm hSW0)
    have hSTpos : 0 < STv := lt_of_le_of_ne hST (Ne.symm hST0)
    have hCqpos : 0 < q.G * SSv * SWv * STv ^ 3 / 4 := by positivity
    have hminpos : 0 < listMin SL_list := hpos _ (listMin_mem SL_list hne)
    have hmaxpos : 0 < listMax SL_list := hpos _ (listMax_mem SL_list hne)
    have hmin_s : listMin SL_list ≤ s := listMin_le SL_list s hs
    have hs_max : s ≤ listMax SL_list := le_listMax SL_list s hs
    have hb : quadBounds SWv STv SSv q SL_list
        = ((q.G * SSv * SWv * STv ^ 3 / 4) / listMax SL_list ^ 3,
           (q.G * SSv * SWv * STv ^ 3 / 4) / listMin SL_list ^ 3) := by
      rw [quadBounds, if_neg hne, if_neg]
      push_neg
      exact ⟨hminpos, hmaxpos, ne_of_gt hCqpos⟩
    have hforce : (Quad.mk q.X q.Y s SWv STv SSv q.G).force
        = (q.G * SSv * SWv * STv ^ 3 / 4) / s ^ 3 := by
      rw [Quad.force, if_neg (by push_neg; exact ⟨ne_of_gt hspos, hSW0, hST0, hSS0, hG0⟩),
        Quad.inertia]
      rw [show (3 : ℚ) * q.G * (SWv * STv ^ 3 / 12) * SSv
            = q.G * SSv * SWv * STv ^ 3 / 4 by ring]
    rw [hb, hforce]
    constructor
    · exact div_le_div_of_nonneg_left (le_of_lt hCqpos) (by positivity)
        (pow_le_pow_left₀ (le_of_lt hspos) hs_max 3)
    · exact div_le_div_of_nonneg_left (le_of_lt hCqpos) (by positivity)
        (pow_le_pow_left₀ (le_of_lt hminpos) hmin_s 3)

/--
C1 as stated is false (see `spec_c1_counterexample`): `sum_F_bounds` silently
skips a quadrant whose SL range reaches 0 or below, so the returned interval
can miss the true aggregate force.  Amended soundness: for non-negative shared
SW, ST, SS and quadrant moduli G, and per-quadrant finite non-empty SL ranges
all of whose values are strictly positive (as the search always builds them,
floored at `MIN_SL = 5`), every SL tuple drawn from the Cartesian product of
the ranges yields an aggregate force inside `[F_min, F_max]`.
-/
theorem spec_c1 (SWv STv SSv : ℚ) (hSW : 0 ≤ SWv) (hST : 0 ≤ STv) (hSS : 0 ≤ SSv)
    (pairs : List (Quad × List ℚ)) (sls : List ℚ)
    (hsel : List.Forall₂ (fun (p : Quad × List ℚ) (s : ℚ) => s ∈ p.2) pairs sls)
    (hG : ∀ p ∈ pairs, 0 ≤ (Prod.fst p).G)
    (hpos : ∀ p ∈ pairs, ∀ x ∈ (Prod.snd p), 0 < x) :
    (sum_F_bounds SWv STv SSv pairs).1
        ≤ assemblyForce SWv STv SSv ((pairs.map Prod.fst).zip sls) ∧
    assemblyForce SWv STv SSv ((pairs.map Prod.fst).zip sls)
        ≤ (sum_F_bounds SWv STv SSv pairs).2 := by
  induction hsel with
  | nil =>
    simp [sum_F_bounds, assemblyForce]
  | @cons p s ps ss hmem htail ih =>
    have hGp : 0 ≤ p.1.G := hG p (List.mem_cons_self _ _)
    have hposp : ∀ x ∈ p.2, 0 < x := hpos p (List.mem_cons_self _ _)
    have ihr := ih (fun r hr => hG r (List.mem_cons_of_mem _ hr))
      (fun r hr => hpos r (List.mem_cons_of_mem _ hr))
    have hq := quadBounds_sound SWv STv SSv hSW hST hSS p.1 hGp p.2 hposp s hmem
    rw [sum_F_bounds_cons]
    have hzip : (((p :: ps).map Prod.fst).zip (s :: ss))
        = (p.1, s) :: ((ps.map Prod.fst).zip ss) := by simp
    rw [hzip]
    have hAF : assemblyForce SWv STv SSv ((p.1, s) :: ((ps.map Prod.fst).zip ss))
        = (Quad.mk p.1.X p.1.Y s SWv STv SSv p.1.G).force
          + assemblyForce SWv STv SSv ((ps.map Prod.fst).zip ss) := by
      rfl
    rw [hAF]
    exact ⟨add_le_add hq.1 ihr.1, add_le_add hq.2 ihr.2⟩

/-- The original C1 fails: with SW = ST = SS = 1 and a single quadrant with
G = 4 whose SL range is `frange(0, 10, 10) = [0, 10]`, the bound estimator
returns `(0, 0)` (it skips the quadrant because `min(SL_list) <= 0`), yet the
SL tuple `(10,)` from the range product has aggregate force `1/1000 > 0`. -/
theorem spec_c1_counterexample :
    frange 0 10 10 5 = some [0, 10] ∧
    (sum_F_bounds 1 1 1 [(Quad.mk 0 0 0 0 0 0 4, [0, 10])]).2
      < assemblyForce 1 1 1 [(Quad.mk 0 0 0 0 0 0 4, 10)] := by
  constructor
  · norm_num [frange, frangeAux, round6, pyRoundHalfEven]
  · norm_num [sum_F_bounds, quadBounds, listMin, listMax, assemblyForce,
      Quad.force, Quad.inertia, List.foldl, min_def, max_def]

theorem spec_c1_witness :
    (sum_F_bounds 1 1 1 [(Quad.mk 0 0 0 0 0 0 4, [2, 3])]).1
        ≤ assemblyForce 1 1 1
            (([(Quad.mk 0 0 0 0 0 0 4, [2, 3])].map Prod.fst).zip [2]) ∧
    assemblyForce 1 1 1 (([(Quad.mk 0 0 0 0 0 0 4, [2, 3])].map Prod.fst).zip [2])
        ≤ (sum_F_bounds 1 1 1 [(Quad.mk 0 0 0 0 0 0 4, [2, 3])]).2 :=
  spec_c1 1 1 1 (by norm_num) (by norm_num) (by norm_num)
    [(Quad.mk 0 0 0 0 0 0 4, [2, 3])] [2]
    (List.Forall₂.cons (List.mem_cons_self 2 [3]) List.Forall₂.nil)
    (by norm_num) (by norm_num)

/-- C2: `force` is the textbook formula when all required inputs are nonzero,
and exactly 0 when any of SL, SW, ST, SS, G is zero (total function, no
exception or NaN/Inf in the exact model). -/
theorem spec_c2 (q : Quad) :
    (q.SL ≠ 0 → q.SW ≠ 0 → q.ST ≠ 0 → q.SS ≠ 0 → q.G ≠ 0 →
      q.force = 3 * q.G * (q.SW * q.ST ^ 3 / 12) * q.SS / q.SL ^ 3) ∧
    (q.SL = 0 ∨ q.SW = 0 ∨ q.ST = 0 ∨ q.SS = 0 ∨ q.G = 0 → q.force = 0) := by
  constructor
  · intro h1 h2 h3 h4 h5
    rw [Quad.force, if_neg (by push_neg; exact ⟨h1, h2, h3, h4, h5⟩), Quad.inertia]
  · intro h
    rw [Quad.force, if_pos h]

theorem spec_c2_witness :
    (Quad.mk 0 0 2 1 1 1 1).force = 3 * 1 * (1 * 1 ^ 3 / 12) * 1 / 2 ^ 3 ∧
    (Quad.mk 0 0 0 1 1 1 1).force = 0 :=
  ⟨(spec_c2 (Quad.mk 0 0 2 1 1 1 1)).1 (by norm_num) (by norm_num) (by norm_num)
      (by norm_num) (by norm_num),
   (spec_c2 (Quad.mk 0 0 0 1 1 1 1)).2 (Or.inl rfl)⟩

lemma frangeAux_neg_step_none :
    ∀ (fuel : ℕ) (x : ℚ) (acc : List ℚ), x ≤ 1 + 1/1000000000 →
      frangeAux 1 (-(1/10)) fuel x acc = none := by
  intro fuel
  induction fuel with
  | zero => intro x acc _; rfl
  | succ n ih =>
    intro x acc h
    rw [frangeAux, if_pos h, if_neg (by norm_num)]
    exact ih _ _ (by linarith)

/-- C3 is wrong about the code: with a negative step (e.g.
`frange(0, 1, -0.1)`) the loop never terminates (no amount of fuel makes it
return), and with step 0 it advances by `1e-9` per iteration, so e.g.
`frange(0, 3e-9, 0)` terminates with FIVE elements, not a single-element
sequence. -/
theorem spec_c3 :
    (∀ fuel : ℕ, frange 0 1 (-(1/10)) fuel = none) ∧
    frange 0 (3/1000000000) 0 10 = some [0, 0, 0, 0, 0] := by
  constructor
  · intro fuel
    exact frangeAux_neg_step_none fuel 0 [] (by norm_num)
  · norm_num [frange, frangeAux, round6, pyRoundHalfEven]

/-- The four tunable dimension tags (`"SL"`, `"SW"`, `"ST"`, `"SS"`). -/
inductive Param where
  | SL
  | SW
  | ST
  | SS
deriving DecidableEq, Fintype

/-- `assign_stars(modified_params)`. -/
def assign_stars (modified : Finset Param) : String :=
  if modified = ∅ then "★"
  else if modified = {Param.ST} then "★★★★"
  else if Param.ST ∈ modified then
    (if modified.card - 1 = 1 then "★★★"
     else if modified.card - 1 = 2 then "★★"
     else if modified.card - 1 = 3 then "★" else "★")
  else
    (if modified.card = 1 then "★★★"
     else if modified.card = 2 then "★★"
     else if modified.card = 3 then "★" else "★")

/-- The `star_rank` lookup (`.get(x, 1)` defaults to 1). -/
def star_rank (s : String) : ℤ :=
  if s = "★★★★" then 4
  else if s = "★★★" then 3
  else if s = "★★" then 2
  else if s = "★" then 1 else 1

/-- `is_quad4_disabled_by_dims(q)`. -/
def is_quad4_disabled_by_dims (q : Quad) : Bool :=
  if |q.SL| < 1/1000000000000 ∧ |q.SW| < 1/1000000000000 ∧
     |q.ST| < 1/1000000000000 ∧ |q.SS| < 1/1000000000000 then true else false

/-- C7: the star table, checked for all 16 subsets of the parameter set. -/
theorem spec_c7 : ∀ s : Finset Param,
    (s = ∅ → assign_stars s = "★") ∧
    (s = {Param.ST} → assign_stars s = "★★★★") ∧
    (Param.ST ∈ s → s.card = 2 → assign_stars s = "★★★") ∧
    (Param.ST ∈ s → s.card = 3 → assign_stars s = "★★") ∧
    (s.card = 4 → assign_stars s = "★") ∧
    (Param.ST ∉ s → s.card = 1 → assign_stars s = "★★★") ∧
    (Param.ST ∉ s → s.card = 2 → assign_stars s = "★★") ∧
    (Param.ST ∉ s → s.card = 3 → assign_stars s = "★") := by
  decide

theorem spec_c7_witness :
    assign_stars {Param.ST, Param.SW} = "★★★" ∧
    assign_stars {Param.SW, Param.SL} = "★★" :=
  ⟨(spec_c7 {Param.ST, Param.SW}).2.2.1 (by decide) (by decide),
   (spec_c7 {Param.SW, Param.SL}).2.2.2.2.2.2.1 (by decide) (by decide)⟩

/-! ## The optimizer (`main`'s search section) -/

def MIN_SW : ℚ := 3
def MIN_SL : ℚ := 5
def MIN_SS : ℚ := 3/10
def ST_min : ℚ := 3/10
def ST_max : ℚ := 1/2

/-- The inputs the optimizer closes over: the four quadrant records, the target
force and the display count. -/
structure Ctx where
  qA : Quad
  qB : Quad
  qC : Quad
  qD : Quad
  F_target : ℚ
  Nshow : ℕ

def Ctx.lower (c : Ctx) : ℚ := c.F_target * (95/100)

def Ctx.upper (c : Ctx) : ℚ := c.F_target * (105/100)

def Ctx.base_SW (c : Ctx) : ℚ := c.qA.SW

def Ctx.base_SS (c : Ctx) : ℚ := c.qA.SS

def Ctx.SL_bases (c : Ctx) : List ℚ := [c.qA.SL, c.qB.SL, c.qC.SL, c.qD.SL]

def Ctx.disableD (c : Ctx) : Bool := is_quad4_disabled_by_dims c.qD

def Ctx.quads (c : Ctx) : List Quad :=
  [c.qA, c.qB, c.qC] ++ (if c.disableD then [] else [c.qD])

/-- `RESULT_CAP = int(max(10, N_show * 3))`. -/
def Ctx.cap (c : Ctx) : ℕ := max 10 (c.Nshow * 3)

/-- One feasible result tuple `(STv, SWv, SLs, SSv, totF, allX, allY, stars, modified)`. -/
structure SResult where
  STv : ℚ
  SWv : ℚ
  SLs : List ℚ
  SSv : ℚ
  totF : ℚ
  allX : ℚ
  allY : ℚ
  stars : String
  modified : Finset Param
deriving DecidableEq

/-- One seed tuple `(STv, SWv, SSv, SLs, |F - F_target|)`. -/
structure Seed where
  STv : ℚ
  SWv : ℚ
  SSv : ℚ
  SLs : List ℚ
  diff : ℚ
deriving DecidableEq

def comboQuad1 (c : Ctx) (STv SWv SSv : ℚ) (SLs : List ℚ) : Quad :=
  ⟨c.qA.X, c.qA.Y, SLs.getD 0 0, SWv, STv, SSv, c.qA.G⟩

def comboQuad2 (c : Ctx) (STv SWv SSv : ℚ) (SLs : List ℚ) : Quad :=
  ⟨c.qB.X, c.qB.Y, SLs.getD 1 0, SWv, STv, SSv, c.qB.G⟩

def comboQuad3 (c : Ctx) (STv SWv SSv : ℚ) (SLs : List ℚ) : Quad :=
  ⟨c.qC.X, c.qC.Y, SLs.getD 2 0, SWv, STv, SSv, c.qC.G⟩

def comboQuad4 (c : Ctx) (STv SWv SSv : ℚ) (SLs : List ℚ) : Quad :=
  if c.disableD then ⟨0, 0, 0, 0, 0, 0, 0⟩
  else ⟨c.qD.X, c.qD.Y, SLs.getD 3 0, SWv, STv, SSv, c.qD.G⟩

def comboTotF (c : Ctx) (STv SWv SSv : ℚ) (SLs : List ℚ) : ℚ :=
  (comboQuad1 c STv SWv SSv SLs).force + (comboQuad2 c STv SWv SSv SLs).force
    + (comboQuad3 c STv SWv SSv SLs).force + (comboQuad4 c STv SWv SSv SLs).force

def comboTotXM (c : Ctx) (STv SWv SSv : ℚ) (SLs : List ℚ) : ℚ :=
  (comboQuad1 c STv SWv SSv SLs).moment_x (comboQuad1 c STv SWv SSv SLs).force
    + (comboQuad2 c STv SWv SSv SLs).moment_x (comboQuad2 c STv SWv SSv SLs).force
    + (comboQuad3 c STv SWv SSv SLs).moment_x (comboQuad3 c STv SWv SSv SLs).force
    + (comboQuad4 c STv SWv SSv SLs).moment_x (comboQuad4 c STv SWv SSv SLs).force

def comboTotYM (c : Ctx) (STv SWv SSv : ℚ) (SLs : List ℚ) : ℚ :=
  (comboQuad1 c STv SWv SSv SLs).moment_y (comboQuad1 c STv SWv SSv SLs).force
    + (comboQuad2 c STv SWv SSv SLs).moment_y (comboQuad2 c STv SWv SSv SLs).force
    + (comboQuad3 c STv SWv SSv SLs).moment_y (comboQuad3 c STv SWv SSv SLs).force
    + (comboQuad4 c STv SWv SSv SLs).moment_y (comboQuad4 c STv SWv SSv SLs).force

/-- The recorded modified-parameter set. -/
def modifiedSet (c : Ctx) (STv SWv SSv : ℚ) (SLs : List ℚ) : Finset Param :=
  let m1 : Finset Param := if round6 (STv - c.qA.ST) ≠ 0 then {Param.ST} else ∅
  let m2 := if round6 (SWv - c.base_SW) ≠ 0 then insert Param.SW m1 else m1
  let enabled_idx : List ℕ := [0, 1, 2] ++ (if c.disableD then [] else [3])
  let m3 := if ∃ i ∈ enabled_idx, round6 (SLs.getD i 0 - c.SL_bases.getD i 0) ≠ 0
    then insert Param.SL m2 else m2
  if round6 (SSv - c.base_SS) ≠ 0 then insert Param.SS m3 else m3

/-- `evaluate_combo(STv, SWv, SSv, SLs) -> (feasible?, tuple-or-None, |F - F_target|)`. -/
def evaluate_combo (c : Ctx) (STv SWv SSv : ℚ) (SLs : List ℚ) :
    Bool × Option SResult × ℚ :=
  let totF := comboTotF c STv SWv SSv SLs
  let totXM := comboTotXM c STv SWv SSv SLs
  let totYM := comboTotYM c STv SWv SSv SLs
  if ¬ (c.lower ≤ totF ∧ totF ≤ c.upper) then (false, none, |totF - c.F_target|)
  else if |totF| < 1/1000000000000 then (false, none, |totF - c.F_target|)
  else
    let allX := totXM / totF
    let allY := totYM / totF
    if ¬ (-(1/2) ≤ allX ∧ allX ≤ 1/2 ∧ -(1/2) ≤ allY ∧ allY ≤ 1/2) then
      (false, none, |totF - c.F_target|)
    else
      let m := modifiedSet c STv SWv SSv SLs
      (true, some ⟨STv, SWv, SLs, SSv, totF, allX, allY, assign_stars m, m⟩,
        |totF - c.F_target|)

/-! ## The pre-search single-shot computation in `main` (rounded displays) -/

def mainTotalF (qA qB qC qD : Quad) : ℚ :=
  round6 qA.force + round6 qB.force + round6 qC.force + round6 qD.force

def mainTotalXM (qA qB qC qD : Quad) : ℚ :=
  round6 (qA.moment_x (round6 qA.force)) + round6 (qB.moment_x (round6 qB.force))
    + round6 (qC.moment_x (round6 qC.force)) + round6 (qD.moment_x (round6 qD.force))

def mainTotalYM (qA qB qC qD : Quad) : ℚ :=
  round6 (qA.moment_y (round6 qA.force)) + round6 (qB.moment_y (round6 qB.force))
    + round6 (qC.moment_y (round6 qC.force)) + round6 (qD.moment_y (round6 qD.force))

/-- `ALL_X = (total_XM / total_F) if total_F != 0 else 0.0`. -/
def mainALL_X (qA qB qC qD : Quad) : ℚ :=
  if mainTotalF qA qB qC qD ≠ 0 then mainTotalXM qA qB qC qD / mainTotalF qA qB qC qD
  else 0

def mainALL_Y (qA qB qC qD : Quad) : ℚ :=
  if mainTotalF qA qB qC qD ≠ 0 then mainTotalYM qA qB qC qD / mainTotalF qA qB qC qD
  else 0

/-! ## Stage search engine -/

/-- The nested `for STv / for SWv / for SSv` loops, flattened in loop order. -/
def prodTriples (as bs cs : List ℚ) : List (ℚ × ℚ × ℚ) :=
  as.flatMap (fun a => bs.flatMap (fun b => cs.map (fun c => (a, b, c))))

/-- `itertools.product(*SL_ranges)` (first range varies slowest). -/
def listProd : List (List ℚ) → List (List ℚ)
  | [] => [[]]
  | r :: rs => r.flatMap (fun x => (listProd rs).map (fun t => x :: t))

/-- The innermost `for SLs in itertools.product(*SL_ranges)` loop.  The returned
Bool is true when the `len(stage_results) >= RESULT_CAP` early `return` fired. -/
def evalSLs (c : Ctx) (STv SWv SSv : ℚ) :
    List (List ℚ) → List SResult → List Seed → List SResult × List Seed × Bool
  | [], res, sds => (res, sds, false)
  | SLs :: rest, res, sds =>
    if c.disableD = true ∧ SLs.length = 4 ∧ 1/1000000000000 < |SLs.getD 3 0| then
      evalSLs c STv SWv SSv rest res sds
    else
      let r := evaluate_combo c STv SWv SSv SLs
      let res2 := if r.1 = true then res ++ r.2.1.toList else res
      let sds2 := sds ++ [⟨STv, SWv, SSv, SLs, r.2.2⟩]
      if c.cap ≤ res2.length then (res2, sds2, true)
      else evalSLs c STv SWv SSv rest res2 sds2

/-- The `(STv, SWv, SSv)` triple loop with the `sum_F_bounds` prune; the Bool
flag propagates the cap-triggered early `return` out of the triple loop. -/
def scanTriples (c : Ctx) (SL_ranges : List (List ℚ)) :
    List (ℚ × ℚ × ℚ) → List SResult → List Seed → List SResult × List Seed × Bool
  | [], res, sds => (res, sds, false)
  | (STv, SWv, SSv) :: rest, res, sds =>
    let b := sum_F_bounds SWv STv SSv (c.quads.zip SL_ranges)
    if b.2 < c.lower ∨ c.upper < b.1 then scanTriples c SL_ranges rest res sds
    else
      let r := evalSLs c STv SWv SSv (listProd SL_ranges) res sds
      if r.2.2 = true then r
      else scanTriples c SL_ranges rest r.1 r.2.1

def SL_candidates (base step_val : ℚ) : List ℚ :=
  frangeD (max MIN_SL (base - 1/2)) (base + 1/2) step_val

/-- `build_SL_ranges(center_SLs=None)`: the global-window SL ranges. -/
def buildSLRangesGlobal (c : Ctx) (step_val : ℚ) : List (List ℚ) :=
  [SL_candidates (c.SL_bases.getD 0 0) step_val,
   SL_candidates (c.SL_bases.getD 1 0) step_val,
   SL_candidates (c.SL_bases.getD 2 0) step_val,
   if c.disableD then [0] else SL_candidates (c.SL_bases.getD 3 0) step_val]

/-- `build_SL_ranges(center_SLs, half_span)`: seed-local SL ranges. -/
def buildSLRangesLocal (c : Ctx) (center : List ℚ) (half_span step_val : ℚ) :
    List (List ℚ) :=
  [frangeD (max MIN_SL (center.getD 0 0 - half_span)) (center.getD 0 0 + half_span) step_val,
   frangeD (max MIN_SL (center.getD 1 0 - half_span)) (center.getD 1 0 + half_span) step_val,
   frangeD (max MIN_SL (center.getD 2 0 - half_span)) (center.getD 2 0 + half_span) step_val,
   if c.disableD then [0]
   else frangeD (max MIN_SL (center.getD 3 0 - half_span)) (center.getD 3 0 + half_span) step_val]

def ST_candidates (step_val : ℚ) : List ℚ := frangeD ST_min ST_max step_val

def SW_candidates (base step_val : ℚ) : List ℚ :=
  frangeD (max MIN_SW (base - 1/2)) (base + 1/2) step_val

def SS_candidates (base SS_step : ℚ) : List ℚ :=
  frangeD (max MIN_SS (base - 1/5)) (base + 1/5) SS_step

/-- The per-seed loop of the beam-local scan. -/
def scanSeeds (c : Ctx) (step_val SS_step SL_half_span : ℚ) :
    List Seed → List SResult → List Seed → List SResult × List Seed × Bool
  | [], res, sds => (res, sds, false)
  | sd :: rest, res, sds =>
    let ST_pool := frangeD (max ST_min (sd.STv - step_val)) (min ST_max (sd.STv + step_val)) step_val
    let SW_pool := frangeD (max MIN_SW (sd.SWv - step_val)) (sd.SWv + step_val) step_val
    let SS_pool := frangeD (max MIN_SS (sd.SSv - SS_step)) (sd.SSv + SS_step) SS_step
    let SL_ranges := buildSLRangesLocal c sd.SLs SL_half_span step_val
    let r := scanTriples c SL_ranges (prodTriples ST_pool SW_pool SS_pool) res sds
    if r.2.2 = true then r
    else scanSeeds c step_val SS_step SL_half_span rest r.1 r.2.1

/-- `scan_stage(step_val, SS_step, SL_half_span, seeds, beam_local)`. -/
def scan_stage (c : Ctx) (step_val SS_step SL_half_span : ℚ) (seeds : List Seed)
    (beam_local : Bool) : List SResult × List Seed :=
  if beam_local = true ∧ seeds ≠ [] then
    let r := scanSeeds c step_val SS_step SL_half_span seeds [] []
    (r.1, r.2.1)
  else
    let r := scanTriples c (buildSLRangesGlobal c step_val)
      (prodTriples (ST_candidates step_val) (SW_candidates c.base_SW step_val)
        (SS_candidates c.base_SS SS_step)) [] []
    (r.1, r.2.1)

/-! ## Beam controller, scorer and final ordering -/

def sortSeeds (l : List Seed) : List Seed :=
  l.mergeSort (fun a b => decide (a.diff ≤ b.diff))

/-- The ascending order on the Python sort key
`(-star_rank.get(stars, 1), abs(totF - F_target))`. -/
def resultKeyLe (Ft : ℚ) (a b : SResult) : Bool :=
  decide (-(star_rank a.stars) < -(star_rank b.stars)
    ∨ (-(star_rank a.stars) = -(star_rank b.stars) ∧ |a.totF - Ft| ≤ |b.totF - Ft|))

def sortResults (Ft : ℚ) (l : List SResult) : List SResult :=
  l.mergeSort (resultKeyLe Ft)

def beamK : ℕ := 12

/-- The full three-stage search plus final ranking and truncation: returns the
displayed, ordered result list. -/
def optimize (c : Ctx) : List SResult :=
  let s1 := scan_stage c (1/10) (1/10) (1/2) [] false
  let seeds1sorted := (sortSeeds s1.2).take beamK
  let s2 := if seeds1sorted ≠ [] then scan_stage c (1/20) (1/20) (1/4) seeds1sorted true
            else scan_stage c (1/20) (1/20) (1/2) [] false
  let seeds2sorted := (sortSeeds (if s2.2 ≠ [] then s2.2 else s1.2)).take beamK
  let s3 := if seeds2sorted ≠ [] then scan_stage c (1/50) (1/20) (3/20) seeds2sorted true
            else scan_stage c (1/50) (1/20) (1/2) [] false
  let allRes := s1.1 ++ s2.1 ++ s3.1
  (sortResults c.F_target allRes).take c.Nshow

/-! ## C4: centroid guard -/

/-- In `main`, every summand of `total_F` is a 6-decimal multiple, so a total
within `1e-12` of zero is exactly zero. -/
lemma mainTotalF_small_eq_zero (qA qB qC qD : Quad)
    (h : |mainTotalF qA qB qC qD| < 1/1000000000000) :
    mainTotalF qA qB qC qD = 0 := by
  obtain ⟨k1, h1⟩ := round6_is_multiple qA.force
  obtain ⟨k2, h2⟩ := round6_is_multiple qB.force
  obtain ⟨k3, h3⟩ := round6_is_multiple qC.force
  obtain ⟨k4, h4⟩ := round6_is_multiple qD.force
  have hm : mainTotalF qA qB qC qD = ((k1 + k2 + k3 + k4 : ℤ) : ℚ) / 1000000 := by
    rw [mainTotalF, h1, h2, h3, h4]
    push_cast
    ring
  rw [hm] at h ⊢
  have habs : |((k1 + k2 + k3 + k4 : ℤ) : ℚ)| < 1 := by
    rw [abs_div, abs_of_pos (by norm_num : (0:ℚ) < 1000000)] at h
    linarith
  have hz : (k1 + k2 + k3 + k4 : ℤ) = 0 := by
    have h5 : |(k1 + k2 + k3 + k4 : ℤ)| < 1 := by exact_mod_cast habs
    have h6 := abs_lt.mp h5
    omega
  rw [hz]
  norm_num

/--
C4: in `main` the centroid is `(ΣXM / ΣF, ΣYM / ΣF)` whenever `ΣF ≠ 0` and
`(0, 0)` whenever `ΣF` is within `1e-12` of zero (in the exact model the
rounded summands make any such `ΣF` exactly zero, caught by the `!= 0` guard);
in `evaluate_combo` a candidate whose `ΣF` is within `1e-12` of zero is
rejected before any division.  No division by a zero denominator occurs.
-/
theorem spec_c4 (qA qB qC qD : Quad) (c : Ctx) (STv SWv SSv : ℚ) (SLs : List ℚ) :
    (|mainTotalF qA qB qC qD| < 1/1000000000000 →
      mainALL_X qA qB qC qD = 0 ∧ mainALL_Y qA qB qC qD = 0) ∧
    (mainTotalF qA qB qC qD ≠ 0 →
      mainALL_X qA qB qC qD = mainTotalXM qA qB qC qD / mainTotalF qA qB qC qD ∧
      mainALL_Y qA qB qC qD = mainTotalYM qA qB qC qD / mainTotalF qA qB qC qD) ∧
    (|comboTotF c STv SWv SSv SLs| < 1/1000000000000 →
      (evaluate_combo c STv SWv SSv SLs).1 = false) := by
  refine ⟨?_, ?_, ?_⟩
  · intro h
    have h0 := mainTotalF_small_eq_zero qA qB qC qD h
    constructor
    · rw [mainALL_X, if_neg (by simp [h0])]
    · rw [mainALL_Y, if_neg (by simp [h0])]
  · intro h
    exact ⟨by rw [mainALL_X, if_pos h], by rw [mainALL_Y, if_pos h]⟩
  · intro h
    by_cases h1 : c.lower ≤ comboTotF c STv SWv SSv SLs ∧ comboTotF c STv SWv SSv SLs ≤ c.upper
    · simp only [evaluate_combo]
      rw [if_neg (not_not_intro h1), if_pos h]
    · simp only [evaluate_combo]
      rw [if_pos h1]

theorem spec_c4_witness :
    (mainALL_X (Quad.mk 0 0 0 0 0 0 0) (Quad.mk 0 0 0 0 0 0 0)
        (Quad.mk 0 0 0 0 0 0 0) (Quad.mk 0 0 0 0 0 0 0) = 0 ∧
     mainALL_Y (Quad.mk 0 0 0 0 0 0 0) (Quad.mk 0 0 0 0 0 0 0)
        (Quad.mk 0 0 0 0 0 0 0) (Quad.mk 0 0 0 0 0 0 0) = 0) ∧
    (mainALL_X (Quad.mk 1 0 2 1 1 1 1) (Quad.mk 0 0 0 0 0 0 0)
        (Quad.mk 0 0 0 0 0 0 0) (Quad.mk 0 0 0 0 0 0 0)
      = mainTotalXM (Quad.mk 1 0 2 1 1 1 1) (Quad.mk 0 0 0 0 0 0 0)
          (Quad.mk 0 0 0 0 0 0 0) (Quad.mk 0 0 0 0 0 0 0)
        / mainTotalF (Quad.mk 1 0 2 1 1 1 1) (Quad.mk 0 0 0 0 0 0 0)
          (Quad.mk 0 0 0 0 0 0 0) (Quad.mk 0 0 0 0 0 0 0) ∧
     mainALL_Y (Quad.mk 1 0 2 1 1 1 1) (Quad.mk 0 0 0 0 0 0 0)
        (Quad.mk 0 0 0 0 0 0 0) (Quad.mk 0 0 0 0 0 0 0)
      = mainTotalYM (Quad.mk 1 0 2 1 1 1 1) (Quad.mk 0 0 0 0 0 0 0)
          (Quad.mk 0 0 0 0 0 0 0) (Quad.mk 0 0 0 0 0 0 0)
        / mainTotalF (Quad.mk 1 0 2 1 1 1 1) (Quad.mk 0 0 0 0 0 0 0)
          (Quad.mk 0 0 0 0 0 0 0) (Quad.mk 0 0 0 0 0 0 0)) ∧
    (evaluate_combo
        (Ctx.mk (Quad.mk 0 0 0 0 0 0 0) (Quad.mk 0 0 0 0 0 0 0)
          (Quad.mk 0 0 0 0 0 0 0) (Quad.mk 0 0 0 0 0 0 0) 0 1) 0 0 0 []).1 = false :=
  ⟨(spec_c4 (Quad.mk 0 0 0 0 0 0 0) (Quad.mk 0 0 0 0 0 0 0) (Quad.mk 0 0 0 0 0 0 0)
      (Quad.mk 0 0 0 0 0 0 0)
      (Ctx.mk (Quad.mk 0 0 0 0 0 0 0) (Quad.mk 0 0 0 0 0 0 0) (Quad.mk 0 0 0 0 0 0 0)
        (Quad.mk 0 0 0 0 0 0 0) 0 1) 0 0 0 []).1
      (by norm_num [mainTotalF, Quad.force, round6, pyRoundHalfEven]),
   (spec_c4 (Quad.mk 1 0 2 1 1 1 1) (Quad.mk 0 0 0 0 0 0 0) (Quad.mk 0 0 0 0 0 0 0)
      (Quad.mk 0 0 0 0 0 0 0)
      (Ctx.mk (Quad.mk 0 0 0 0 0 0 0) (Quad.mk 0 0 0 0 0 0 0) (Quad.mk 0 0 0 0 0 0 0)
        (Quad.mk 0 0 0 0 0 0 0) 0 1) 0 0 0 []).2.1
      (by norm_num [mainTotalF, Quad.force, Quad.inertia, round6, pyRoundHalfEven]),
   (spec_c4 (Quad.mk 0 0 0 0 0 0 0) (Quad.mk 0 0 0 0 0 0 0) (Quad.mk 0 0 0 0 0 0 0)
      (Quad.mk 0 0 0 0 0 0 0)
      (Ctx.mk (Quad.mk 0 0 0 0 0 0 0) (Quad.mk 0 0 0 0 0 0 0) (Quad.mk 0 0 0 0 0 0 0)
        (Quad.mk 0 0 0 0 0 0 0) 0 1) 0 0 0 []).2.2
      (by norm_num [comboTotF, comboQuad1, comboQuad2, comboQuad3, comboQuad4,
        Ctx.disableD, is_quad4_disabled_by_dims, Quad.force, List.getD])⟩

/-! ## C9: disabled-quadrant handling -/

/--
C9 amended: disabling applies to quadrant 4 ONLY.  When quadrant 4's SL, SW,
ST, SS are all within `1e-12` of zero, its SL range is pinned to `[0.0]` in
both the global and the seed-local range builders, the quadrant used by
`evaluate_combo` is the all-zero quadrant, and it contributes force 0 and
moments 0, so the candidate totals are those of the first three quadrants.
(For quadrants 1-3 no such rule exists: see `spec_c9_counterexample`.)
-/
theorem spec_c9 (c : Ctx) (hdis : c.disableD = true) (step_val half_span : ℚ)
    (center : List ℚ) (STv SWv SSv : ℚ) (SLs : List ℚ) :
    (buildSLRangesGlobal c step_val).getD 3 [] = [0] ∧
    (buildSLRangesLocal c center half_span step_val).getD 3 [] = [0] ∧
    comboQuad4 c STv SWv SSv SLs = Quad.mk 0 0 0 0 0 0 0 ∧
    (comboQuad4 c STv SWv SSv SLs).force = 0 ∧
    (comboQuad4 c STv SWv SSv SLs).moment_x ((comboQuad4 c STv SWv SSv SLs).force) = 0 ∧
    (comboQuad4 c STv SWv SSv SLs).moment_y ((comboQuad4 c STv SWv SSv SLs).force) = 0 ∧
    comboTotF c STv SWv SSv SLs
      = (comboQuad1 c STv SWv SSv SLs).force + (comboQuad2 c STv SWv SSv SLs).force
        + (comboQuad3 c STv SWv SSv SLs).force := by
  have h4 : comboQuad4 c STv SWv SSv SLs = Quad.mk 0 0 0 0 0 0 0 := by
    rw [comboQuad4, if_pos hdis]
  have hf : (comboQuad4 c STv SWv SSv SLs).force = 0 := by
    rw [h4, Quad.force, if_pos (Or.inl rfl)]
  refine ⟨?_, ?_, h4, hf, ?_, ?_, ?_⟩
  · simp [buildSLRangesGlobal, hdis]
  · simp [buildSLRangesLocal, hdis]
  · rw [hf, h4]
    simp [Quad.moment_x]
  · rw [hf, h4]
    simp [Quad.moment_y]
  · rw [comboTotF, hf, add_zero]

/-- The original C9 fails for quadrants other than the fourth: an all-zero
quadrant 1 is not excluded — its SL is swept over
`frange(max(5, -0.5), 0.5, step)`, which is EMPTY, not the pinned `[0.0]`. -/
theorem spec_c9_counterexample :
    is_quad4_disabled_by_dims (Quad.mk 10 10 0 0 0 0 18763) = true ∧
    (buildSLRangesGlobal
        (Ctx.mk (Quad.mk 10 10 0 0 0 0 18763)
          (Quad.mk (-10) 10 20 5 (3/10) (1/2) 18763)
          (Quad.mk (-10) (-10) 20 5 (3/10) (1/2) 18763)
          (Quad.mk 10 (-10) 20 5 (3/10) (1/2) 18763) 50 5) (1/10)).getD 0 []
      = [] ∧
    (([] : List ℚ) ≠ [0]) := by
  refine ⟨?_, ?_, by simp⟩
  · norm_num [is_quad4_disabled_by_dims]
  · have h1 : frangeD 5 (1/2) (1/10) = [] :=
      frangeD_eq_of 5 (1/2) (1/10) 1 [] (by norm_num [frange, frangeAux])
        (by norm_num [frangeFuel])
    norm_num [buildSLRangesGlobal, SL_candidates, Ctx.SL_bases, MIN_SL, max_def,
      List.getD, h1]

/-! ## C5: early-exit cap -/

lemma option_toList_length (o : Option SResult) : o.toList.length ≤ 1 := by
  cases o <;> simp

lemma evalSLs_caps (c : Ctx) (STv SWv SSv : ℚ) :
    ∀ (tuples : List (List ℚ)) (res : List SResult) (sds : List Seed),
      res.length < c.cap →
      (evalSLs c STv SWv SSv tuples res sds).1.length ≤ c.cap ∧
      ((evalSLs c STv SWv SSv tuples res sds).2.2 = false →
        (evalSLs c STv SWv SSv tuples res sds).1.length < c.cap) := by
  intro tuples
  induction tuples with
  | nil =>
    intro res sds h
    exact ⟨le_of_lt h, fun _ => h⟩
  | cons SLs rest ih =>
    intro res sds h
    have hlen2 := option_toList_length (evaluate_combo c STv SWv SSv SLs).2.1
    simp only [evalSLs]
    split_ifs with h1 h2 h3 h4
    · exact ih res sds h
    · refine ⟨?_, fun habs => by simp at habs⟩
      simp only [List.length_append] at h3 ⊢
      omega
    · apply ih
      simp only [List.length_append] at h3 ⊢
      omega
    · exact ⟨le_of_lt h, fun habs => by simp at habs⟩
    · exact ih res _ h

lemma scanTriples_caps (c : Ctx) (R : List (List ℚ)) :
    ∀ (triples : List (ℚ × ℚ × ℚ)) (res : List SResult) (sds : List Seed),
      res.length < c.cap →
      (scanTriples c R triples res sds).1.length ≤ c.cap ∧
      ((scanTriples c R triples res sds).2.2 = false →
        (scanTriples c R triples res sds).1.length < c.cap) := by
  intro triples
  induction triples with
  | nil =>
    intro res sds h
    exact ⟨le_of_lt h, fun _ => h⟩
  | cons t rest ih =>
    obtain ⟨STv, SWv, SSv⟩ := t
    intro res sds h
    have he := evalSLs_caps c STv SWv SSv (listProd R) res sds h
    simp only [scanTriples]
    split_ifs with h1 h2
    · exact ih res sds h
    · exact ⟨he.1, fun habs => absurd h2 (by rw [habs]; simp)⟩
    · exact ih _ _ (he.2 (by simpa using h2))

lemma scanSeeds_caps (c : Ctx) (sv ss hs : ℚ) :
    ∀ (seeds : List Seed) (res : List SResult) (sds : List Seed),
      res.length < c.cap →
      (scanSeeds c sv ss hs seeds res sds).1.length ≤ c.cap ∧
      ((scanSeeds c sv ss hs seeds res sds).2.2 = false →
        (scanSeeds c sv ss hs seeds res sds).1.length < c.cap) := by
  intro seeds
  induction seeds with
  | nil =>
    intro res sds h
    exact ⟨le_of_lt h, fun _ => h⟩
  | cons sd rest ih =>
    intro res sds h
    have ht := scanTriples_caps c (buildSLRangesLocal c sd.SLs hs sv)
      (prodTriples (frangeD (max ST_min (sd.STv - sv)) (min ST_max (sd.STv + sv)) sv)
        (frangeD (max MIN_SW (sd.SWv - sv)) (sd.SWv + sv) sv)
        (frangeD (max MIN_SS (sd.SSv - ss)) (sd.SSv + ss) ss)) res sds h
    simp only [scanSeeds]
    split_ifs with h1
    · exact ⟨ht.1, fun habs => absurd h1 (by rw [habs]; simp)⟩
    · exact ih _ _ (ht.2 (by simpa using h1))

lemma cap_pos (c : Ctx) : 0 < c.cap :=
  lt_of_lt_of_le (by norm_num) (le_max_left 10 (c.Nshow * 3))

/--
C5: (i) `RESULT_CAP` is `max(10, 3 * N)`; (ii) every stage invocation returns
at most `RESULT_CAP` feasible results; (iii) as soon as the number of feasible
results reaches the cap inside the innermost SL loop, the whole triple loop is
abandoned — the stage's result is exactly the state at the moment the cap was
hit, independent of every remaining `(ST, SW, SS)` triple; (iv) likewise the
whole seed loop of a beam-local stage is abandoned, independent of every
remaining seed.
-/
theorem spec_c5 :
    (∀ c : Ctx, c.cap = max 10 (c.Nshow * 3)) ∧
    (∀ (c : Ctx) (sv ss hs : ℚ) (seeds : List Seed) (bl : Bool),
      (scan_stage c sv ss hs seeds bl).1.length ≤ c.cap) ∧
    (∀ (c : Ctx) (R : List (List ℚ)) (STv SWv SSv : ℚ) (rest : List (ℚ × ℚ × ℚ))
        (res : List SResult) (sds : List Seed),
      ¬ ((sum_F_bounds SWv STv SSv (c.quads.zip R)).2 < c.lower ∨
          c.upper < (sum_F_bounds SWv STv SSv (c.quads.zip R)).1) →
      (evalSLs c STv SWv SSv (listProd R) res sds).2.2 = true →
      scanTriples c R ((STv, SWv, SSv) :: rest) res sds
        = evalSLs c STv SWv SSv (listProd R) res sds) ∧
    (∀ (c : Ctx) (sv ss hs : ℚ) (sd : Seed) (rest : List Seed)
        (res : List SResult) (sds : List Seed),
      (scanTriples c (buildSLRangesLocal c sd.SLs hs sv)
          (prodTriples (frangeD (max ST_min (sd.STv - sv)) (min ST_max (sd.STv + sv)) sv)
            (frangeD (max MIN_SW (sd.SWv - sv)) (sd.SWv + sv) sv)
            (frangeD (max MIN_SS (sd.SSv - ss)) (sd.SSv + ss) ss)) res sds).2.2 = true →
      scanSeeds c sv ss hs (sd :: rest) res sds
        = scanTriples c (buildSLRangesLocal c sd.SLs hs sv)
            (prodTriples (frangeD (max ST_min (sd.STv - sv)) (min ST_max (sd.STv + sv)) sv)
              (frangeD (max MIN_SW (sd.SWv - sv)) (sd.SWv + sv) sv)
              (frangeD (max MIN_SS (sd.SSv - ss)) (sd.SSv + ss) ss)) res sds) := by
  refine ⟨fun _ => rfl, ?_, ?_, ?_⟩
  · intro c sv ss hs seeds bl
    simp only [scan_stage]
    split_ifs with h1
    · exact (scanSeeds_caps c sv ss hs seeds [] [] (by simpa using cap_pos c)).1
    · exact (scanTriples_caps c (buildSLRangesGlobal c sv) _ [] [] (by simpa using cap_pos c)).1
  · intro c R STv SWv SSv rest res sds hnp hflag
    simp only [scanTriples]
    rw [if_neg hnp, if_pos hflag]
  · intro c sv ss hs sd rest res sds hflag
    simp only [scanSeeds]
    rw [if_pos hflag]

theorem spec_c5_witness :
    scanTriples (Ctx.mk (Quad.mk 0 0 1 1 1 1 12) (Quad.mk 0 0 1 1 1 1 12)
        (Quad.mk 0 0 1 1 1 1 12) (Quad.mk 0 0 1 1 1 1 12) 12 1)
      [[1], [1], [1], [1]] [(1, 1, 1), (1, 1, 1)]
      (List.replicate 9 (SResult.mk 0 0 [] 0 0 0 0 "★" ∅)) []
    = evalSLs (Ctx.mk (Quad.mk 0 0 1 1 1 1 12) (Quad.mk 0 0 1 1 1 1 12)
        (Quad.mk 0 0 1 1 1 1 12) (Quad.mk 0 0 1 1 1 1 12) 12 1)
      1 1 1 (listProd [[1], [1], [1], [1]])
      (List.replicate 9 (SResult.mk 0 0 [] 0 0 0 0 "★" ∅)) [] ∧
    scanSeeds (Ctx.mk (Quad.mk 0 0 5 1 1 1 (5000000/81)) (Quad.mk 0 0 5 1 1 1 (5000000/81))
        (Quad.mk 0 0 5 1 1 1 (5000000/81)) (Quad.mk 0 0 5 1 1 1 (5000000/81)) 12 1)
      (1/10) (1/10) (1/20)
      [Seed.mk (2/5) 3 (3/10) [5, 5, 5, 5] 0, Seed.mk (2/5) 3 (3/10) [5, 5, 5, 5] 0]
      (List.replicate 9 (SResult.mk 0 0 [] 0 0 0 0 "★" ∅)) []
    = scanTriples (Ctx.mk (Quad.mk 0 0 5 1 1 1 (5000000/81)) (Quad.mk 0 0 5 1 1 1 (5000000/81))
        (Quad.mk 0 0 5 1 1 1 (5000000/81)) (Quad.mk 0 0 5 1 1 1 (5000000/81)) 12 1)
        (buildSLRangesLocal (Ctx.mk (Quad.mk 0 0 5 1 1 1 (5000000/81))
          (Quad.mk 0 0 5 1 1 1 (5000000/81)) (Quad.mk 0 0 5 1 1 1 (5000000/81))
          (Quad.mk 0 0 5 1 1 1 (5000000/81)) 12 1)
          (Seed.mk (2/5) 3 (3/10) [5, 5, 5, 5] 0).SLs (1/20) (1/10))
        (prodTriples
          (frangeD (max ST_min ((Seed.mk (2/5) 3 (3/10) [5, 5, 5, 5] 0).STv - 1/10))
            (min ST_max ((Seed.mk (2/5) 3 (3/10) [5, 5, 5, 5] 0).STv + 1/10)) (1/10))
          (frangeD (max MIN_SW ((Seed.mk (2/5) 3 (3/10) [5, 5, 5, 5] 0).SWv - 1/10))
            ((Seed.mk (2/5) 3 (3/10) [5, 5, 5, 5] 0).SWv + 1/10) (1/10))
          (frangeD (max MIN_SS ((Seed.mk (2/5) 3 (3/10) [5, 5, 5, 5] 0).SSv - 1/10))
            ((Seed.mk (2/5) 3 (3/10) [5, 5, 5, 5] 0).SSv + 1/10) (1/10)))
        (List.replicate 9 (SResult.mk 0 0 [] 0 0 0 0 "★" ∅)) [] :=
  ⟨spec_c5.2.2.1 (Ctx.mk (Quad.mk 0 0 1 1 1 1 12) (Quad.mk 0 0 1 1 1 1 12)
      (Quad.mk 0 0 1 1 1 1 12) (Quad.mk 0 0 1 1 1 1 12) 12 1)
      [[1], [1], [1], [1]] 1 1 1 [(1, 1, 1)]
      (List.replicate 9 (SResult.mk 0 0 [] 0 0 0 0 "★" ∅)) []
      (by norm_num [sum_F_bounds, quadBounds, listMin, listMax, Ctx.quads, Ctx.disableD,
        Ctx.lower, Ctx.upper, is_quad4_disabled_by_dims, List.foldl, List.zip,
        List.zipWith, min_def, max_def])
      (by norm_num [evalSLs, listProd, evaluate_combo, comboTotF, comboTotXM, comboTotYM,
        comboQuad1, comboQuad2, comboQuad3, comboQuad4, modifiedSet, Ctx.disableD,
        Ctx.lower, Ctx.upper, Ctx.cap, Ctx.base_SW, Ctx.base_SS, Ctx.SL_bases,
        is_quad4_disabled_by_dims, Quad.force, Quad.inertia, Quad.moment_x, Quad.moment_y,
        round6, pyRoundHalfEven, List.getD, min_def, max_def]),
   spec_c5.2.2.2 (Ctx.mk (Quad.mk 0 0 5 1 1 1 (5000000/81)) (Quad.mk 0 0 5 1 1 1 (5000000/81))
      (Quad.mk 0 0 5 1 1 1 (5000000/81)) (Quad.mk 0 0 5 1 1 1 (5000000/81)) 12 1)
      (1/10) (1/10) (1/20) (Seed.mk (2/5) 3 (3/10) [5, 5, 5, 5] 0)
      [Seed.mk (2/5) 3 (3/10) [5, 5, 5, 5] 0]
      (List.replicate 9 (SResult.mk 0 0 [] 0 0 0 0 "★" ∅)) []
      (by
        have hfsl : frangeD 5 (101/20) (1/10) = [5] :=
          frangeD_eq_of 5 (101/20) (1/10) 3 [5]
            (by norm_num [frange, frangeAux, round6, pyRoundHalfEven])
            (by norm_num [frangeFuel])
        have hfst : frangeD (3/10) (1/2) (1/10) = [3/10, 2/5, 1/2] :=
          frangeD_eq_of (3/10) (1/2) (1/10) 5 [3/10, 2/5, 1/2]
            (by norm_num [frange, frangeAux, round6, pyRoundHalfEven])
            (by norm_num [frangeFuel])
        have hfsw : frangeD 3 (31/10) (1/10) = [3, 31/10] :=
          frangeD_eq_of 3 (31/10) (1/10) 4 [3, 31/10]
            (by norm_num [frange, frangeAux, round6, pyRoundHalfEven])
            (by norm_num [frangeFuel])
        have hfss : frangeD (3/10) (2/5) (1/10) = [3/10, 2/5] :=
          frangeD_eq_of (3/10) (2/5) (1/10) 4 [3/10, 2/5]
            (by norm_num [frange, frangeAux, round6, pyRoundHalfEven])
            (by norm_num [frangeFuel])
        have hlp : listProd [[(5:ℚ)], [5], [5], [5]] = [[5, 5, 5, 5]] := by
          norm_num [listProd]
        have hquads : (Ctx.mk (Quad.mk 0 0 5 1 1 1 (5000000/81))
            (Quad.mk 0 0 5 1 1 1 (5000000/81)) (Quad.mk 0 0 5 1 1 1 (5000000/81))
            (Quad.mk 0 0 5 1 1 1 (5000000/81)) 12 1).quads
            = [Quad.mk 0 0 5 1 1 1 (5000000/81), Quad.mk 0 0 5 1 1 1 (5000000/81),
               Quad.mk 0 0 5 1 1 1 (5000000/81), Quad.mk 0 0 5 1 1 1 (5000000/81)] := by
          norm_num [Ctx.quads, Ctx.disableD, is_quad4_disabled_by_dims]
        have hb : sum_F_bounds 3 (3/10) (3/10)
            [(Quad.mk 0 0 5 1 1 1 (5000000/81), [(5:ℚ)]),
             (Quad.mk 0 0 5 1 1 1 (5000000/81), [5]),
             (Quad.mk 0 0 5 1 1 1 (5000000/81), [5]),
             (Quad.mk 0 0 5 1 1 1 (5000000/81), [5])] = (12, 12) := by
          norm_num [sum_F_bounds, quadBounds, listMin, listMax, List.foldl]
        have hE : (evalSLs (Ctx.mk (Quad.mk 0 0 5 1 1 1 (5000000/81))
            (Quad.mk 0 0 5 1 1 1 (5000000/81)) (Quad.mk 0 0 5 1 1 1 (5000000/81))
            (Quad.mk 0 0 5 1 1 1 (5000000/81)) 12 1) (3/10) 3 (3/10) [[5, 5, 5, 5]]
            (List.replicate 9 (SResult.mk 0 0 [] 0 0 0 0 "★" ∅)) []).2.2 = true := by
          norm_num [evalSLs, evaluate_combo, comboTotF, comboTotXM, comboTotYM,
            comboQuad1, comboQuad2, comboQuad3, comboQuad4, modifiedSet, Ctx.disableD,
            Ctx.lower, Ctx.upper, Ctx.cap, Ctx.base_SW, Ctx.base_SS, Ctx.SL_bases,
            is_quad4_disabled_by_dims, Quad.force, Quad.inertia, Quad.moment_x,
            Quad.moment_y, round6, pyRoundHalfEven, List.getD, min_def, max_def]
        norm_num [buildSLRangesLocal, prodTriples, Ctx.disableD,
          is_quad4_disabled_by_dims, MIN_SL, MIN_SW, MIN_SS, ST_min, ST_max,
          List.getD, max_def, min_def, hfsl, hfst, hfsw, hfss, scanTriples, hquads,
          hb, Ctx.lower, Ctx.upper, hlp, hE])⟩

/-! ## C6: final ordering -/

lemma resultKeyLe_trans (Ft : ℚ) : ∀ a b c : SResult,
    resultKeyLe Ft a b → resultKeyLe Ft b c → resultKeyLe Ft a c := by
  intro a b c h1 h2
  simp only [resultKeyLe, decide_eq_true_eq] at h1 h2 ⊢
  rcases h1 with h1 | ⟨h1e, h1le⟩ <;> rcases h2 with h2 | ⟨h2e, h2le⟩
  · exact Or.inl (lt_trans h1 h2)
  · exact Or.inl (h2e ▸ h1)
  · exact Or.inl (h1e ▸ h2)
  · exact Or.inr ⟨h1e.trans h2e, le_trans h1le h2le⟩

lemma resultKeyLe_total (Ft : ℚ) : ∀ a b : SResult,
    resultKeyLe Ft a b || resultKeyLe Ft b a := by
  intro a b
  simp only [resultKeyLe, Bool.or_eq_true, decide_eq_true_eq]
  rcases lt_trichotomy (-(star_rank a.stars)) (-(star_rank b.stars)) with h | h | h
  · exact Or.inl (Or.inl h)
  · rcases le_total |a.totF - Ft| |b.totF - Ft| with h2 | h2
    · exact Or.inl (Or.inr ⟨h, h2⟩)
    · exact Or.inr (Or.inr ⟨h.symm, h2⟩)
  · exact Or.inr (Or.inl h)

/--
C6: the pooled results are totally ordered by descending star rating with ties
broken by ascending `|totF - F_target|` (so any 4-star result precedes every
lower-star result), the sorted list is a permutation of the pool, and the
display is the `N`-prefix: its length is `min N (number of results)` and when
fewer than `N` results exist the whole sorted list is returned, unpadded.
-/
theorem spec_c6 (Ft : ℚ) (l : List SResult) (N : ℕ) :
    (sortResults Ft l).Pairwise (fun a b =>
      star_rank b.stars < star_rank a.stars ∨
      (star_rank a.stars = star_rank b.stars ∧ |a.totF - Ft| ≤ |b.totF - Ft|)) ∧
    (sortResults Ft l).Perm l ∧
    ((sortResults Ft l).take N).length = min N l.length ∧
    (l.length ≤ N → (sortResults Ft l).take N = sortResults Ft l) := by
  have hperm : (sortResults Ft l).Perm l := List.mergeSort_perm l _
  have hlen : (sortResults Ft l).length = l.length := hperm.length_eq
  refine ⟨?_, hperm, ?_, ?_⟩
  · have hs := @List.sorted_mergeSort SResult (resultKeyLe Ft)
      (resultKeyLe_trans Ft) (resultKeyLe_total Ft) l
    refine hs.imp ?_
    intro a b hab
    simp only [resultKeyLe, decide_eq_true_eq] at hab
    rcases hab with h | ⟨he, hle⟩
    · exact Or.inl (by omega)
    · exact Or.inr ⟨by omega, hle⟩
  · rw [List.length_take, hlen]
  · intro h
    apply List.take_of_length_le
    rw [hlen]
    exact h

theorem spec_c6_witness :
    (sortResults 0 [SResult.mk 0 0 [] 0 0 0 0 "★" ∅,
        SResult.mk 0 0 [] 0 0 0 0 "★★★★" ∅]).take 5
      = sortResults 0 [SResult.mk 0 0 [] 0 0 0 0 "★" ∅,
          SResult.mk 0 0 [] 0 0 0 0 "★★★★" ∅] :=
  (spec_c6 0 [SResult.mk 0 0 [] 0 0 0 0 "★" ∅,
    SResult.mk 0 0 [] 0 0 0 0 "★★★★" ∅] 5).2.2.2 (by norm_num)

/-! ## C8: parameter-domain invariant -/

lemma frangeAux_mem (stop step : ℚ) (hstep : 0 < step) :
    ∀ (fuel : ℕ) (x : ℚ) (acc l : List ℚ),
      frangeAux stop step fuel x acc = some l →
      ∀ v ∈ l, v ∈ acc ∨ ∃ y : ℚ, x ≤ y ∧ y ≤ stop + 1/1000000000 ∧ v = round6 y := by
  intro fuel
  induction fuel with
  | zero =>
    intro x acc l h
    simp [frangeAux] at h
  | succ n ih =>
    intro x acc l h v hv
    rw [frangeAux] at h
    by_cases hc : x ≤ stop + 1/1000000000
    · rw [if_pos hc, if_neg (by exact ne_of_gt hstep)] at h
      rcases ih _ _ _ h v hv with hmem | ⟨y, hy1, hy2, hy3⟩
      · rcases List.mem_append.mp hmem with h2 | h2
        · exact Or.inl h2
        · refine Or.inr ⟨x, le_refl x, hc, ?_⟩
          simpa using h2
      · exact Or.inr ⟨y, le_trans (by linarith) hy1, hy2, hy3⟩
    · rw [if_neg hc] at h
      obtain rfl : acc = l := by injection h
      exact Or.inl hv

lemma frangeD_mem (lo hi step : ℚ) (hstep : 0 < step) (v : ℚ)
    (hv : v ∈ frangeD lo hi step) :
    ∃ y : ℚ, lo ≤ y ∧ y ≤ hi + 1/1000000000 ∧ v = round6 y := by
  rw [frangeD] at hv
  cases hop : frange lo hi step frangeFuel with
  | none => rw [hop] at hv; simp at hv
  | some L =>
    rw [hop] at hv
    simp only [Option.getD] at hv
    rw [frange] at hop
    rcases frangeAux_mem hi step hstep frangeFuel lo [] L hop v hv with h | h
    · simp at h
    · exact h

/-- A `round6` value that is at most a 6-decimal boundary plus the `1e-9` loop
tolerance is already at most the boundary. -/
lemma round6_le_of_le_eps (m : ℤ) (y : ℚ)
    (h : y ≤ (m : ℚ) / 1000000 + 1/1000000000) :
    round6 y ≤ (m : ℚ) / 1000000 := by
  obtain ⟨k, hk⟩ := round6_is_multiple y
  obtain ⟨_, h2⟩ := round6_bounds y
  rw [hk] at h2 ⊢
  have hmk : (k : ℚ) < (m : ℚ) + 1 := by linarith
  have h3 : (k : ℤ) < m + 1 := by exact_mod_cast hmk
  have : (k : ℚ) ≤ (m : ℚ) := by exact_mod_cast (by omega : (k : ℤ) ≤ m)
  linarith

/--
C8 amended: in the global scan, every generated candidate value respects a
CLOSED floor (`SW ≥ 3`, `SL ≥ 5`, `SS ≥ 0.3`; `ST ∈ [0.3, 0.5]`) — the floors
are reachable, not strict (part (i) of `spec_c8_counterexample`) — and stays
inside the deviation window around the per-run baseline (`±0.5` for SW and
SL, `±0.2` for SS) up to a boundary epsilon of `1e-6`, every value being an
exact 6-decimal-place multiple.  Beam-local stages recenter their pools on
seeds and drift up to one step beyond the baseline window (part (ii) of
`spec_c8_counterexample`), so the window invariant can only hold of the
global candidate builders.
-/
theorem spec_c8 (step base v : ℚ) (hstep : 0 < step) :
    (v ∈ SW_candidates base step →
      3 ≤ v ∧ base - 1/2 - 1/1000000 ≤ v ∧ v ≤ base + 1/2 + 1/1000000 ∧
      ∃ k : ℤ, v = (k : ℚ) / 1000000) ∧
    (v ∈ SL_candidates base step →
      5 ≤ v ∧ base - 1/2 - 1/1000000 ≤ v ∧ v ≤ base + 1/2 + 1/1000000 ∧
      ∃ k : ℤ, v = (k : ℚ) / 1000000) ∧
    (v ∈ SS_candidates base step →
      3/10 ≤ v ∧ base - 1/5 - 1/1000000 ≤ v ∧ v ≤ base + 1/5 + 1/1000000 ∧
      ∃ k : ℤ, v = (k : ℚ) / 1000000) ∧
    (v ∈ ST_candidates step →
      3/10 ≤ v ∧ v ≤ 1/2 ∧ ∃ k : ℤ, v = (k : ℚ) / 1000000) := by
  refine ⟨?_, ?_, ?_, ?_⟩
  · intro hv
    obtain ⟨y, h1, h2, rfl⟩ := frangeD_mem _ _ _ hstep v hv
    obtain ⟨hb1, hb2⟩ := round6_bounds y
    have hy3 : (3 : ℚ) ≤ y := le_trans (le_max_left _ _) h1
    have hylo : base - 1/2 ≤ y := le_trans (le_max_right _ _) h1
    refine ⟨?_, by linarith, by linarith, round6_is_multiple y⟩
    have := round6_ge_of_le 3000000 y (by push_cast; linarith [hy3])
    push_cast at this
    linarith
  · intro hv
    obtain ⟨y, h1, h2, rfl⟩ := frangeD_mem _ _ _ hstep v hv
    obtain ⟨hb1, hb2⟩ := round6_bounds y
    have hy3 : (5 : ℚ) ≤ y := le_trans (le_max_left _ _) h1
    have hylo : base - 1/2 ≤ y := le_trans (le_max_right _ _) h1
    refine ⟨?_, by linarith, by linarith, round6_is_multiple y⟩
    have := round6_ge_of_le 5000000 y (by push_cast; linarith [hy3])
    push_cast at this
    linarith
  · intro hv
    obtain ⟨y, h1, h2, rfl⟩ := frangeD_mem _ _ _ hstep v hv
    obtain ⟨hb1, hb2⟩ := round6_bounds y
    have hy3 : (3/10 : ℚ) ≤ y := le_trans (le_max_left _ _) h1
    have hylo : base - 1/5 ≤ y := le_trans (le_max_right _ _) h1
    refine ⟨?_, by linarith, by linarith, round6_is_multiple y⟩
    have := round6_ge_of_le 300000 y (by push_cast; linarith [hy3])
    push_cast at this
    linarith
  · intro hv
    obtain ⟨y, h1, h2, rfl⟩ := frangeD_mem _ _ _ hstep v hv
    have hy3 : (3/10 : ℚ) ≤ y := by
      simpa [ST_min] using h1
    have hyhi : y ≤ 1/2 + 1/1000000000 := by
      simpa [ST_max] using h2
    refine ⟨?_, ?_, round6_is_multiple y⟩
    · have := round6_ge_of_le 300000 y (by push_cast; linarith [hy3])
      push_cast at this
      linarith
    · have := round6_le_of_le_eps 500000 y (by push_cast; linarith [hyhi])
      push_cast at this
      linarith

/-- The original C8 fails in two ways, one per clause of the claim.
(i) Floors are not strict: with `base_SW = 3` the generated SW candidates
include exactly 3, violating `SW > 3` (the code floors at `max(MIN_SW, ...)`,
a closed bound).
(ii) Beam-local pools leave the baseline deviation window: the stage-1 global
scan at `base_SW = 5` generates the candidate `SW = 5.5` at the top of the
`±0.5` window, every evaluated candidate is emitted as a seed, and the
stage-2 beam-local SW pool around that seed,
`frange(max(MIN_SW, 5.5 - 0.05), 5.5 + 0.05, 0.05)` (the pool built in the
seed loop), contains `5.55 = base_SW + 0.55` — outside the `±0.5` window by a
full step, far beyond any boundary epsilon. -/
theorem spec_c8_counterexample :
    ((3 : ℚ) ∈ SW_candidates 3 (1/10) ∧ ¬ ((3 : ℚ) > 3)) ∧
    ((11/2 : ℚ) ∈ SW_candidates 5 (1/10) ∧
     (111/20 : ℚ) ∈ frangeD (max MIN_SW ((11/2 : ℚ) - 1/20)) ((11/2 : ℚ) + 1/20) (1/20) ∧
     ¬ ((111/20 : ℚ) ≤ 5 + 1/2 + 1/1000000)) := by
  refine ⟨⟨?_, by norm_num⟩, ?_, ?_, by norm_num⟩
  · have h : frangeD 3 (7/2) (1/10) = [3, 31/10, 16/5, 33/10, 17/5, 7/2] := by
      apply frangeD_eq_of 3 (7/2) (1/10) 8
      · norm_num [frange, frangeAux, round6, pyRoundHalfEven]
      · norm_num [frangeFuel]
    have harg : max MIN_SW ((3:ℚ) - 1/2) = 3 := by norm_num [MIN_SW]
    rw [SW_candidates, harg]
    norm_num [h]
  · have h2 : frangeD (9/2) (11/2) (1/10)
        = [9/2, 23/5, 47/10, 24/5, 49/10, 5, 51/10, 26/5, 53/10, 27/5, 11/2] := by
      apply frangeD_eq_of (9/2) (11/2) (1/10) 13
      · norm_num [frange, frangeAux, round6, pyRoundHalfEven]
      · norm_num [frangeFuel]
    have harg : max MIN_SW ((5:ℚ) - 1/2) = 9/2 := by norm_num [MIN_SW]
    rw [SW_candidates, harg]
    norm_num [h2]
  · have h3 : frangeD (109/20) (111/20) (1/20) = [109/20, 11/2, 111/20] := by
      apply frangeD_eq_of (109/20) (111/20) (1/20) 5
      · norm_num [frange, frangeAux, round6, pyRoundHalfEven]
      · norm_num [frangeFuel]
    have harg : max MIN_SW ((11/2:ℚ) - 1/20) = 109/20 := by norm_num [MIN_SW]
    rw [harg]
    norm_num [h3]

theorem spec_c8_witness :
    (3 ≤ (3:ℚ) ∧ (3:ℚ) - 1/2 - 1/1000000 ≤ 3 ∧ (3:ℚ) ≤ 3 + 1/2 + 1/1000000 ∧
      ∃ k : ℤ, (3:ℚ) = (k : ℚ) / 1000000) ∧
    (3/10 ≤ (3/10:ℚ) ∧ (3/10:ℚ) ≤ 1/2 ∧ ∃ k : ℤ, (3/10:ℚ) = (k : ℚ) / 1000000) :=
  ⟨(spec_c8 (1/10) 3 3 (by norm_num)).1 (by
      have h : frangeD 3 (7/2) (1/10) = [3, 31/10, 16/5, 33/10, 17/5, 7/2] := by
        apply frangeD_eq_of 3 (7/2) (1/10) 8
        · norm_num [frange, frangeAux, round6, pyRoundHalfEven]
        · norm_num [frangeFuel]
      have harg : max MIN_SW ((3:ℚ) - 1/2) = 3 := by norm_num [MIN_SW]
      rw [SW_candidates, harg]
      norm_num [h]),
   (spec_c8 (1/10) 0 (3/10) (by norm_num)).2.2.2 (by
      have h : frangeD (3/10) (1/2) (1/10) = [3/10, 2/5, 1/2] := by
        apply frangeD_eq_of (3/10) (1/2) (1/10) 5
        · norm_num [frange, frangeAux, round6, pyRoundHalfEven]
        · norm_num [frangeFuel]
      rw [ST_candidates]
      norm_num [ST_min, ST_max, h])⟩

theorem spec_c9_witness :
    (buildSLRangesGlobal
        (Ctx.mk (Quad.mk 10 10 20 5 (3/10) (1/2) 18763)
          (Quad.mk (-10) 10 20 5 (3/10) (1/2) 18763)
          (Quad.mk (-10) (-10) 20 5 (3/10) (1/2) 18763)
          (Quad.mk 10 (-10) 0 0 0 0 0) 50 5) (1/10)).getD 3 [] = [0] ∧
    (comboQuad4
        (Ctx.mk (Quad.mk 10 10 20 5 (3/10) (1/2) 18763)
          (Quad.mk (-10) 10 20 5 (3/10) (1/2) 18763)
          (Quad.mk (-10) (-10) 20 5 (3/10) (1/2) 18763)
          (Quad.mk 10 (-10) 0 0 0 0 0) 50 5) (3/10) 5 (1/2) [20, 20, 20, 20]).force
      = 0 :=
  ⟨(spec_c9
      (Ctx.mk (Quad.mk 10 10 20 5 (3/10) (1/2) 18763)
        (Quad.mk (-10) 10 20 5 (3/10) (1/2) 18763)
        (Quad.mk (-10) (-10) 20 5 (3/10) (1/2) 18763)
        (Quad.mk 10 (-10) 0 0 0 0 0) 50 5)
      (by norm_num [Ctx.disableD, is_quad4_disabled_by_dims])
      (1/10) (1/2) [20, 20, 20, 20] (3/10) 5 (1/2) [20, 20, 20, 20]).1,
   (spec_c9
      (Ctx.mk (Quad.mk 10 10 20 5 (3/10) (1/2) 18763)
        (Quad.mk (-10) 10 20 5 (3/10) (1/2) 18763)
        (Quad.mk (-10) (-10) 20 5 (3/10) (1/2) 18763)
        (Quad.mk 10 (-10) 0 0 0 0 0) 50 5)
      (by norm_num [Ctx.disableD, is_quad4_disabled_by_dims])
      (1/10) (1/2) [20, 20, 20, 20] (3/10) 5 (1/2) [20, 20, 20, 20]).2.2.2.1⟩

/-! ## C10: noninterference — quadrants 2 and 3 matter only through X, Y, SL, G -/

/-- Two optimizer inputs that agree on everything except possibly the SW, ST,
SS fields of quadrants 2 and 3. -/
def CtxEq (c c2 : Ctx) : Prop :=
  c.qA = c2.qA ∧ c.qD = c2.qD ∧ c.F_target = c2.F_target ∧ c.Nshow = c2.Nshow ∧
  c.qB.X = c2.qB.X ∧ c.qB.Y = c2.qB.Y ∧ c.qB.SL = c2.qB.SL ∧ c.qB.G = c2.qB.G ∧
  c.qC.X = c2.qC.X ∧ c.qC.Y = c2.qC.Y ∧ c.qC.SL = c2.qC.SL ∧ c.qC.G = c2.qC.G

lemma CtxEq.disableD_eq {c c2 : Ctx} (h : CtxEq c c2) : c.disableD = c2.disableD := by
  obtain ⟨_, hD, _⟩ := h
  simp only [Ctx.disableD, hD]

lemma CtxEq.cap_eq {c c2 : Ctx} (h : CtxEq c c2) : c.cap = c2.cap := by
  obtain ⟨_, _, _, hN, _⟩ := h
  simp only [Ctx.cap, hN]

lemma CtxEq.lower_eq {c c2 : Ctx} (h : CtxEq c c2) : c.lower = c2.lower := by
  obtain ⟨_, _, hF, _⟩ := h
  simp only [Ctx.lower, hF]

lemma CtxEq.upper_eq {c c2 : Ctx} (h : CtxEq c c2) : c.upper = c2.upper := by
  obtain ⟨_, _, hF, _⟩ := h
  simp only [Ctx.upper, hF]

lemma CtxEq.base_SW_eq {c c2 : Ctx} (h : CtxEq c c2) : c.base_SW = c2.base_SW := by
  obtain ⟨hA, _⟩ := h
  simp only [Ctx.base_SW, hA]

lemma CtxEq.base_SS_eq {c c2 : Ctx} (h : CtxEq c c2) : c.base_SS = c2.base_SS := by
  obtain ⟨hA, _⟩ := h
  simp only [Ctx.base_SS, hA]

lemma CtxEq.SL_bases_eq {c c2 : Ctx} (h : CtxEq c c2) : c.SL_bases = c2.SL_bases := by
  obtain ⟨hA, hD, _, _, _, _, hBSL, _, _, _, hCSL, _⟩ := h
  simp only [Ctx.SL_bases, hA, hD, hBSL, hCSL]

lemma evaluate_combo_congr (c c2 : Ctx) (h : CtxEq c c2) (STv SWv SSv : ℚ) (SLs : List ℚ) :
    evaluate_combo c STv SWv SSv SLs = evaluate_combo c2 STv SWv SSv SLs := by
  obtain ⟨hA, hD, hF, hN, hBX, hBY, hBSL, hBG, hCX, hCY, hCSL, hCG⟩ := h
  simp only [evaluate_combo, comboTotF, comboTotXM, comboTotYM, comboQuad1, comboQuad2,
    comboQuad3, comboQuad4, modifiedSet, Ctx.lower, Ctx.upper, Ctx.base_SW, Ctx.base_SS,
    Ctx.SL_bases, Ctx.disableD, hA, hD, hF, hBX, hBY, hBSL, hBG, hCX, hCY, hCSL, hCG]

lemma quads_congr (c c2 : Ctx) (h : CtxEq c c2) :
    List.Forall₂ (fun a b : Quad => a.G = b.G) c.quads c2.quads := by
  have hdd := h.disableD_eq
  obtain ⟨hA, hD, hF, hN, hBX, hBY, hBSL, hBG, hCX, hCY, hCSL, hCG⟩ := h
  cases hb : c2.disableD <;>
    simp [Ctx.quads, hdd, hb, hA, hD, List.forall₂_cons, hBG, hCG]

lemma sum_F_bounds_zip_congr {q1 q2 : List Quad}
    (h : List.Forall₂ (fun a b : Quad => a.G = b.G) q1 q2) :
    ∀ (R : List (List ℚ)) (SWv STv SSv : ℚ),
      sum_F_bounds SWv STv SSv (q1.zip R) = sum_F_bounds SWv STv SSv (q2.zip R) := by
  induction h with
  | nil => intro R SWv STv SSv; rfl
  | @cons a b l1 l2 hab htail ih =>
    intro R SWv STv SSv
    cases R with
    | nil => rfl
    | cons r R =>
      have hqb : quadBounds SWv STv SSv a r = quadBounds SWv STv SSv b r := by
        simp only [quadBounds, hab]
      simp only [List.zip_cons_cons, sum_F_bounds_cons, hqb, ih R]

lemma evalSLs_congr (c c2 : Ctx) (h : CtxEq c c2) (STv SWv SSv : ℚ) :
    ∀ (tuples : List (List ℚ)) (res : List SResult) (sds : List Seed),
      evalSLs c STv SWv SSv tuples res sds = evalSLs c2 STv SWv SSv tuples res sds := by
  have hdd := h.disableD_eq
  have hcap := h.cap_eq
  have hec := evaluate_combo_congr c c2 h STv SWv SSv
  intro tuples
  induction tuples with
  | nil => intro res sds; rfl
  | cons SLs rest ih =>
    intro res sds
    simp only [evalSLs, hdd, hcap, hec, ih]

lemma scanTriples_congr (c c2 : Ctx) (h : CtxEq c c2) :
    ∀ (R : List (List ℚ)) (triples : List (ℚ × ℚ × ℚ)) (res : List SResult)
      (sds : List Seed),
      scanTriples c R triples res sds = scanTriples c2 R triples res sds := by
  have hq := quads_congr c c2 h
  have hlow := h.lower_eq
  have hup := h.upper_eq
  have hev := evalSLs_congr c c2 h
  intro R triples
  induction triples with
  | nil => intro res sds; rfl
  | cons t rest ih =>
    obtain ⟨STv, SWv, SSv⟩ := t
    intro res sds
    simp only [scanTriples, sum_F_bounds_zip_congr hq R, hlow, hup, hev, ih]

lemma scanSeeds_congr (c c2 : Ctx) (h : CtxEq c c2) (sv ss hs : ℚ) :
    ∀ (seeds : List Seed) (res : List SResult) (sds : List Seed),
      scanSeeds c sv ss hs seeds res sds = scanSeeds c2 sv ss hs seeds res sds := by
  have hdd := h.disableD_eq
  have hloc : ∀ (center : List ℚ) (a b : ℚ),
      buildSLRangesLocal c center a b = buildSLRangesLocal c2 center a b := by
    intro center a b
    simp only [buildSLRangesLocal, hdd]
  have hst := scanTriples_congr c c2 h
  intro seeds
  induction seeds with
  | nil => intro res sds; rfl
  | cons sd rest ih =>
    intro res sds
    simp only [scanSeeds, hloc, hst, ih]

lemma scan_stage_congr (c c2 : Ctx) (h : CtxEq c c2) (sv ss hs : ℚ)
    (seeds : List Seed) (bl : Bool) :
    scan_stage c sv ss hs seeds bl = scan_stage c2 sv ss hs seeds bl := by
  have hdd := h.disableD_eq
  have hglob : ∀ a : ℚ, buildSLRangesGlobal c a = buildSLRangesGlobal c2 a := by
    intro a
    simp only [buildSLRangesGlobal, h.SL_bases_eq, hdd]
  simp only [scan_stage, scanSeeds_congr c c2 h, scanTriples_congr c c2 h, hglob,
    h.base_SW_eq, h.base_SS_eq]

/--
C10: the optimizer's displayed, ordered result list reads quadrants 2 and 3
only through their X, Y, SL and G fields (the shared SW, ST, SS baselines come
from quadrant 1 alone), so two runs differing only in the SW, ST or SS inputs
of quadrant 2 or 3 produce identical optimization results.
-/
theorem spec_c10 (qA qB qB2 qC qC2 qD : Quad) (Ft : ℚ) (N : ℕ)
    (hBX : qB.X = qB2.X) (hBY : qB.Y = qB2.Y) (hBSL : qB.SL = qB2.SL)
    (hBG : qB.G = qB2.G) (hCX : qC.X = qC2.X) (hCY : qC.Y = qC2.Y)
    (hCSL : qC.SL = qC2.SL) (hCG : qC.G = qC2.G) :
    optimize (Ctx.mk qA qB qC qD Ft N) = optimize (Ctx.mk qA qB2 qC2 qD Ft N) := by
  have h : CtxEq (Ctx.mk qA qB qC qD Ft N) (Ctx.mk qA qB2 qC2 qD Ft N) :=
    ⟨rfl, rfl, rfl, rfl, hBX, hBY, hBSL, hBG, hCX, hCY, hCSL, hCG⟩
  simp only [optimize, scan_stage_congr _ _ h]

theorem spec_c10_witness :
    optimize (Ctx.mk (Quad.mk 10 10 20 5 (3/10) (1/2) 18763)
      (Quad.mk (-10) 10 20 5 (3/10) (1/2) 18763)
      (Quad.mk (-10) (-10) 20 5 (3/10) (1/2) 18763)
      (Quad.mk 10 (-10) 20 5 (3/10) (1/2) 18763) 50 5)
    = optimize (Ctx.mk (Quad.mk 10 10 20 5 (3/10) (1/2) 18763)
      (Quad.mk (-10) 10 20 7 (2/5) 1 18763)
      (Quad.mk (-10) (-10) 20 9 (1/2) (3/4) 18763)
      (Quad.mk 10 (-10) 20 5 (3/10) (1/2) 18763) 50 5) :=
  spec_c10 (Quad.mk 10 10 20 5 (3/10) (1/2) 18763)
    (Quad.mk (-10) 10 20 5 (3/10) (1/2) 18763) (Quad.mk (-10) 10 20 7 (2/5) 1 18763)
    (Quad.mk (-10) (-10) 20 5 (3/10) (1/2) 18763)
    (Quad.mk (-10) (-10) 20 9 (1/2) (3/4) 18763)
    (Quad.mk 10 (-10) 20 5 (3/10) (1/2) 18763) 50 5
    rfl rfl rfl rfl rfl rfl rfl rfl

end Shrapnel
